import Mathlib

/-!
Verification development for the TraceNet GUI miner tool
(`tools/gui_miner/{main,wallet,miner,explorer}.py`).

The development shallowly embeds the wallet / transaction-signing engine,
the generic polling loop and the explorer HTTP wrappers, and settles the
frozen claims about them.  Python values flowing through `json.dumps` are
modelled by the `JVal` family below; the two background-loop claims are
settled over a small-step interleaving model of `MinerClient`.
-/

namespace TraceNet

/-- Python float restricted to exactly representable integer values
(|v| < 10^15) other than negative zero, the only float values the
verified pipelines produce.  For such values CPython's `repr` is the
decimal integer followed by a trailing `.0`, which is what `json.dumps`
emits.  CPython's distinct float `-0.0` (whose `repr` is `-0.0`) is not
representable here, so the parser below keeps negative-zero literals
outside the modelled fragment. -/
structure PyFloat where
  val : Int
deriving DecidableEq

/-- CPython `repr` of an integer-valued float: `10.0`, `-5.0`, ... -/
def pyFloatRepr (f : PyFloat) : String :=
  toString f.val ++ ".0"

mutual

/-- Python values that appear in the transaction dictionaries:
`None`, `str`, `int`, `float`, `dict` (insertion ordered) and `list`. -/
inductive JVal where
  | null
  | str (s : String)
  | int (n : Int)
  | float (f : PyFloat)
  | obj (fields : JFields)
  | arr (items : JItems)
deriving DecidableEq

/-- Insertion-ordered association list backing a Python `dict`. -/
inductive JFields where
  | nil
  | cons (k : String) (v : JVal) (rest : JFields)
deriving DecidableEq

/-- Elements of a Python `list`. -/
inductive JItems where
  | nil
  | cons (v : JVal) (rest : JItems)
deriving DecidableEq

end

namespace JFields

/-- Dictionary lookup, `d[k]` / `d.get(k)`. -/
def get? : JFields → String → Option JVal
  | .nil, _ => none
  | .cons k v rest, key => if k = key then some v else get? rest key

/-- Lookup with a default.  In the verified pipelines every key that is
looked up was inserted when the dictionary was built, so the default is
never reached (Python would raise `KeyError` instead). -/
def getD (d : JFields) (key : String) : JVal :=
  (d.get? key).getD .null

/-- Membership test, `k in d`. -/
def hasKey : JFields → String → Bool
  | .nil, _ => false
  | .cons k _ rest, key => k = key || hasKey rest key

end JFields

/-- Single insertion respecting CPython dict semantics: an existing key
keeps its original position and gets the new value; a new key is appended. -/
def dictInsert : JFields → String → JVal → JFields
  | .nil, k, v => .cons k v .nil
  | .cons k0 v0 rest, k, v =>
    if k0 = k then .cons k0 v rest else .cons k0 v0 (dictInsert rest k v)

/-- A Python `dict` literal: entries inserted left to right, so a
duplicated key keeps its first position and its last value. -/
def pyDict (l : List (String × JVal)) : JFields :=
  l.foldl (fun d kv => dictInsert d kv.1 kv.2) .nil

/-- Lowercase hex digit, as CPython uses in its json `\u` escapes. -/
def hexDig (m : Nat) : Char :=
  Nat.digitChar (m % 16)

/-- Four-digit lowercase hex rendering of a code unit. -/
def hex4 (n : Nat) : String :=
  String.mk [hexDig (n / 4096), hexDig (n / 256 % 16), hexDig (n / 16 % 16), hexDig (n % 16)]

/-- CPython json `\uXXXX` escape of a code point; astral code points are
encoded as a UTF-16 surrogate pair, as `json.dumps` does. -/
def uEscape (n : Nat) : String :=
  if n < 65536 then
    "\\u" ++ hex4 n
  else
    "\\u" ++ hex4 (55296 + (n - 65536) / 1024) ++ "\\u" ++ hex4 (56320 + (n - 65536) % 1024)

/-- Escaping of one character of a JSON string, following CPython
`json.dumps` with its default `ensure_ascii=True`. -/
def escapeChar (c : Char) : String :=
  if c = '\"' then "\\\""
  else if c = '\\' then "\\\\"
  else if c = '\x08' then "\\b"
  else if c = '\x09' then "\\t"
  else if c = '\x0a' then "\\n"
  else if c = '\x0c' then "\\f"
  else if c = '\x0d' then "\\r"
  else if c.toNat < 32 || c.toNat > 126 then uEscape c.toNat
  else String.singleton c

/-- CPython `json.dumps` rendering of a Python `str`. -/
def pyJsonStr (s : String) : String :=
  "\"" ++ String.join (s.data.map escapeChar) ++ "\""

mutual

/-- CPython `json.dumps(v, separators=(",", ":"))`: the compact dump used
by `post_tweet` and `send_coins` to build the signable canonical string. -/
def dumpsVal : JVal → String
  | .null => "null"
  | .str s => pyJsonStr s
  | .int n => toString n
  | .float f => pyFloatRepr f
  | .obj fs => "\x7b" ++ dumpsFields fs ++ "\x7d"
  | .arr xs => "[" ++ dumpsItems xs ++ "]"

/-- Compact dump of the members of a dict. -/
def dumpsFields : JFields → String
  | .nil => ""
  | .cons k v rest => pyJsonStr k ++ ":" ++ dumpsVal v ++ dumpsFieldsRest rest

/-- Comma-prefixed continuation of a dict dump. -/
def dumpsFieldsRest : JFields → String
  | .nil => ""
  | .cons k v rest => "," ++ pyJsonStr k ++ ":" ++ dumpsVal v ++ dumpsFieldsRest rest

/-- Compact dump of the elements of a list. -/
def dumpsItems : JItems → String
  | .nil => ""
  | .cons v rest => dumpsVal v ++ dumpsItemsRest rest

/-- Comma-prefixed continuation of a list dump. -/
def dumpsItemsRest : JItems → String
  | .nil => ""
  | .cons v rest => "," ++ dumpsVal v ++ dumpsItemsRest rest

end

/-- Python truthiness of an optional string attribute: `None` and the
empty string are falsy (`if not self.private_key: ...`). -/
def pyTruthyStr : Option String → Bool
  | none => false
  | some s => !s.isEmpty

/-- Value of one hex digit, upper or lower case. -/
def hexVal? (c : Char) : Option Nat :=
  if c.isDigit then some (c.toNat - 48)
  else if 97 ≤ c.toNat && c.toNat ≤ 102 then some (c.toNat - 87)
  else if 65 ≤ c.toNat && c.toNat ≤ 70 then some (c.toNat - 55)
  else none

/-- Byte-pair decoding used by `binascii.unhexlify`: fails on an odd
number of digits or any non-hex character. -/
def hexPairs? : List Char → Option (List Nat)
  | [] => some []
  | [_] => none
  | c1 :: c2 :: rest =>
    match hexVal? c1, hexVal? c2, hexPairs? rest with
    | some h, some l, some bs => some ((16 * h + l) :: bs)
    | _, _, _ => none

/-- `nacl.encoding.HexEncoder.decode` on a Python string. -/
def pyHexDecode? (s : String) : Option (List Nat) :=
  hexPairs? s.data

/-- `WalletManager.sign` (wallet.py lines 45-62).  The Ed25519 primitive
itself lives in the external `nacl` library and is abstracted as `sigFn`
(hex private key and message in, hex signature out); the embedded control
flow is the source's: a falsy private key returns `None` before any
cryptography runs, and any exception inside the `try` block (a private
key that is not valid hex, or whose decoding is not the 32 bytes
`nacl.signing.SigningKey` requires) also yields `None`. -/
def walletSign (sigFn : String → String → String) (private_key : Option String)
    (message : String) : Option String :=
  match private_key with
  | none => none
  | some k =>
    if k.isEmpty then none
    else
      match pyHexDecode? k with
      | none => none
      | some bytes => if bytes.length = 32 then some (sigFn k message) else none

/-- Observable state of the wallet key file when `load_wallet` runs:
absent, present but raising inside `open`/`json.load`/`data.get`
(malformed JSON, or a JSON value that is not a dict), or parsed to a
dict whose `private_key`/`public_key` entries are the given optional
strings (files written by `save_wallet` always hold strings). -/
inductive KeyFile where
  | missing
  | malformed (err : String)
  | parsed (priv pub : Option String)

/-- Key material held by a `WalletManager` instance. -/
structure WalletKeys where
  private_key : Option String
  public_key : Option String
deriving DecidableEq

/-- Everything `load_wallet` produces, separated by channel: the keys the
wallet object ends up with (starting from the `None`/`None` set in
`__init__`), what is printed to the console, and the value returned to
the caller. -/
structure LoadEffect where
  keys : WalletKeys
  printed : Option String
  returned : Option String
deriving DecidableEq

/-- `WalletManager.load_wallet` (wallet.py lines 31-40): a missing file
is skipped silently; an exception is caught and printed, leaving the
keys as they were; a parsed dict populates the keys via `data.get`.
The Python function has no `return` statement, so every path returns
`None` to the caller. -/
def load_wallet : KeyFile → LoadEffect
  | .missing => ⟨⟨none, none⟩, none, none⟩
  | .malformed e => ⟨⟨none, none⟩, some ("Error loading wallet: " ++ e), none⟩
  | .parsed priv pub => ⟨⟨priv, pub⟩, none, none⟩

/-- Result of CPython `float()` on the amount entry.  `ok` covers the
modelled fragment: optionally signed decimal integer literals of
magnitude below 10^15 and not denoting negative zero, which convert
exactly.  `exn` covers inputs that certainly raise `ValueError`: the
empty string, and all-ASCII strings containing a character the ASCII
float parser rejects.  Everything else — in particular any input with a
non-ASCII character, which CPython may still accept by transforming
Unicode decimal digits and Unicode whitespace to ASCII — is outside the
modelled fragment and is kept apart rather than guessed at. -/
inductive FloatParse where
  | ok (f : PyFloat)
  | exn
  | outside
deriving DecidableEq

/-- Digit-string value, `none` when empty or not all digits. -/
def decDigits? (cs : List Char) : Option Nat :=
  if cs.isEmpty then none
  else if cs.all (·.isDigit) then
    some (cs.foldl (fun a c => a * 10 + (c.toNat - 48)) 0)
  else none

/-- Optionally signed integer literal with magnitude below 10^15.  A
minus sign in front of zero digits (`-0`, `-00`, ...) is refused: such a
literal denotes CPython's `-0.0`, which `PyFloat` cannot represent, so
it must stay outside the modelled fragment. -/
def intLitVal? (s : String) : Option Int :=
  let signed : Option Int :=
    match s.data with
    | '-' :: rest => (decDigits? rest).bind
        (fun n => if n = 0 then none else some (-(n : Int)))
    | '+' :: rest => (decDigits? rest).map (fun n => (n : Int))
    | cs => (decDigits? cs).map (fun n => (n : Int))
  signed.bind (fun n => if n.natAbs < 1000000000000000 then some n else none)

/-- ASCII characters that may appear in a string CPython's ASCII float
parser accepts: digits, sign, point, underscore separators, exponent
marks, the letters of `inf`/`infinity`/`nan` in either case, and the
strippable whitespace characters.  This classifies ASCII characters
only: an ASCII character outside this set guarantees a `ValueError`,
whereas a non-ASCII character may still be accepted (CPython first maps
Unicode decimal digits and Unicode whitespace to ASCII), so `pyFloat`
consults this set only for all-ASCII strings. -/
def floatAlphabet (c : Char) : Bool :=
  c.isDigit || c.isWhitespace || c = '\x0b' || c = '\x0c' ||
  c = '+' || c = '-' || c = '.' || c = '_' ||
  c = 'e' || c = 'E' || c = 'i' || c = 'n' || c = 'f' || c = 'a' || c = 't' || c = 'y' ||
  c = 'I' || c = 'N' || c = 'F' || c = 'A' || c = 'T' || c = 'Y'

/-- Modelled `float(entry)` as used by `send_coins`.  The empty string
certainly raises; a string with any non-ASCII character is left outside
the modelled fragment (CPython may accept it after its Unicode
decimal-digit and whitespace transform); an all-ASCII string with a
character outside `floatAlphabet` certainly raises. -/
def pyFloat (s : String) : FloatParse :=
  match intLitVal? s with
  | some n => .ok ⟨n⟩
  | none =>
    if s.isEmpty then .exn
    else if s.data.any (fun c => 128 ≤ c.toNat) then .outside
    else if s.data.any (fun c => !floatAlphabet c) then .exn
    else .outside

/-- A Python attribute that may hold `None` or a string, as a `JVal`. -/
def jOfOpt : Option String → JVal
  | none => .null
  | some s => .str s

/-- The `tx` dict literal of `MiningApp.send_coins` (main.py lines
340-351): transfer transaction with empty payload, fixed fee 500, and
`nonce = timestamp`. -/
def sendCoinsTx (w : WalletKeys) (to_wallet : String) (amount : PyFloat)
    (timestamp : Int) : JFields :=
  pyDict [("tx_id", .str ""),
          ("from_wallet", jOfOpt w.public_key),
          ("to_wallet", .str to_wallet),
          ("type", .str "TRANSFER"),
          ("payload", .obj .nil),
          ("amount", .float amount),
          ("fee", .int 500),
          ("timestamp", .int timestamp),
          ("nonce", .int timestamp),
          ("sender_public_key", jOfOpt w.public_key)]

/-- The `signable_dict` literal of `send_coins` (main.py lines 353-364),
built by looking the fields up in `tx`. -/
def signableOfSend (tx : JFields) : JFields :=
  pyDict [("tx_id", .str ""),
          ("from_wallet", tx.getD "from_wallet"),
          ("to_wallet", tx.getD "to_wallet"),
          ("type", tx.getD "type"),
          ("payload", tx.getD "payload"),
          ("amount", tx.getD "amount"),
          ("fee", tx.getD "fee"),
          ("timestamp", tx.getD "timestamp"),
          ("nonce", tx.getD "nonce"),
          ("sender_public_key", tx.getD "sender_public_key")]

/-- The `payload_data` dict of `MiningApp.post_tweet` (main.py lines
258-262). -/
def postPayload (content : String) (timestamp : Int) : JFields :=
  pyDict [("content", .str content),
          ("type", .str "post"),
          ("timestamp", .int timestamp)]

/-- The `tx` dict literal of `post_tweet` (main.py lines 267-278):
content post addressed to the poster's own wallet, zero amount and fee. -/
def postTweetTx (w : WalletKeys) (content : String) (timestamp : Int) : JFields :=
  pyDict [("tx_id", .str ""),
          ("from_wallet", jOfOpt w.public_key),
          ("to_wallet", jOfOpt w.public_key),
          ("type", .str "POST_CONTENT"),
          ("payload", .obj (postPayload content timestamp)),
          ("amount", .int 0),
          ("fee", .int 0),
          ("timestamp", .int timestamp),
          ("nonce", .int timestamp),
          ("sender_public_key", jOfOpt w.public_key)]

/-- The `signable_dict` literal of `post_tweet` (main.py lines 282-303).
The source literal writes the `"tx_id"` entry twice (both with value
`""`); `pyDict` applies CPython's duplicate-key rule, so the entry keeps
the first position with the last value. -/
def signableOfPost (tx : JFields) : JFields :=
  pyDict [("tx_id", .str ""),
          ("tx_id", .str ""),
          ("from_wallet", tx.getD "from_wallet"),
          ("to_wallet", tx.getD "to_wallet"),
          ("type", tx.getD "type"),
          ("payload", tx.getD "payload"),
          ("amount", tx.getD "amount"),
          ("fee", tx.getD "fee"),
          ("timestamp", tx.getD "timestamp"),
          ("nonce", tx.getD "nonce"),
          ("sender_public_key", tx.getD "sender_public_key")]

/-- Canonical signable string of the transfer pipeline:
`json.dumps(signable_dict, separators=(",", ":"))`. -/
def canonOfSend (w : WalletKeys) (to_wallet : String) (amount : PyFloat)
    (timestamp : Int) : String :=
  dumpsVal (.obj (signableOfSend (sendCoinsTx w to_wallet amount timestamp)))

/-- Canonical signable string of the post pipeline. -/
def canonOfPost (w : WalletKeys) (content : String) (timestamp : Int) : String :=
  dumpsVal (.obj (signableOfPost (postTweetTx w content timestamp)))

/-- Observable outcome of one `send_coins` invocation: a validation
error before any transaction exists, an early return for a missing
wallet, a signing failure that stops the pipeline before the network
call, or a submission of the final transaction dict together with the
canonical string that was signed.  `outsideModel` marks amount entries
whose `float()` behaviour is outside the modelled fragment. -/
inductive SendOutcome where
  | invalidAmount
  | walletNotLoaded
  | signingFailed
  | submitted (tx : JFields) (canonical : String)
  | outsideModel
deriving DecidableEq

/-- `MiningApp.send_coins` (main.py lines 324-381).  `to_wallet` and
`amount_entry` are the stripped entry contents; `timestamp` stands for
`int(time.time() * 1000)`; `sigFn` abstracts the `nacl` signing
primitive.  The embedded control flow: parse the amount (exception →
"Invalid Amount"), check the private key for truthiness ("Wallet not
loaded"), build `tx` and `signable_dict`, dump, sign (falsy result →
"Signing failed", before any network call), attach the signature to
`tx`, and submit. -/
def send_coins (sigFn : String → String → String) (w : WalletKeys)
    (to_wallet amount_entry : String) (timestamp : Int) : SendOutcome :=
  match pyFloat amount_entry with
  | .outside => .outsideModel
  | .exn => .invalidAmount
  | .ok amount =>
    if !pyTruthyStr w.private_key then .walletNotLoaded
    else
      let tx := sendCoinsTx w to_wallet amount timestamp
      let signable_data := dumpsVal (.obj (signableOfSend tx))
      match walletSign sigFn w.private_key signable_data with
      | none => .signingFailed
      | some signature =>
        if signature.isEmpty then .signingFailed
        else .submitted (dictInsert tx "sender_signature" (.str signature)) signable_data

/-- Observable outcome of one `post_tweet` invocation. -/
inductive PostOutcome where
  | emptyContent
  | walletNotLoaded
  | signingFailed
  | submitted (tx : JFields) (canonical : String)
deriving DecidableEq

/-- `MiningApp.post_tweet` (main.py lines 248-322).  `content` is the
stripped text-area content; empty content returns silently; a falsy
private key shows "You need a wallet to post!"; a falsy signing result
shows "Signing failed" before any network call; otherwise the signature
is attached and the transaction submitted. -/
def post_tweet (sigFn : String → String → String) (w : WalletKeys)
    (content : String) (timestamp : Int) : PostOutcome :=
  if content.isEmpty then .emptyContent
  else if !pyTruthyStr w.private_key then .walletNotLoaded
  else
    let tx := postTweetTx w content timestamp
    let signable_data := dumpsVal (.obj (signableOfPost tx))
    match walletSign sigFn w.private_key signable_data with
    | none => .signingFailed
    | some signature =>
      if signature.isEmpty then .signingFailed
      else .submitted (dictInsert tx "sender_signature" (.str signature)) signable_data

/-- Behaviour of the remote call attempted inside `trigger_mine`:
either `requests.post(...).json()` produces a value, or somewhere inside
the `try` block an exception with the given message is raised. -/
abbrev NetBehaviour := Except String JVal

/-- A dict `("error", msg)` as built by the `except` branches. -/
def errObj (e : String) : JVal :=
  .obj (.cons "error" (.str e) .nil)

/-- `MinerClient.trigger_mine` (miner.py lines 25-37): the whole request
is wrapped in `try`/`except Exception`, so every behaviour of the remote
call is converted into a returned value — a raised exception becomes
`(\x7b"error": str(e)\x7d)` and nothing propagates to the caller. -/
def trigger_mine : NetBehaviour → JVal
  | .ok v => v
  | .error e => errObj e

/-- Program counter of the `_mining_loop` worker (miner.py lines 53-58).
`atCheck`: about to evaluate `while self.keep_mining`; `atCall`: the
check passed, the iteration's `trigger_mine` is about to run (and run to
completion); `atSleep`: the callback is done, `time.sleep(interval)` is
about to run.  A worker that fails the check exits and disappears. -/
inductive WorkerPC where
  | atCheck
  | atCall
  | atSleep
deriving DecidableEq

/-- Shared state of one `MinerClient`: the `keep_mining` flag and the
live (not yet exited) worker threads with their program counters, in
spawn order. -/
structure LoopState where
  keepMining : Bool
  workers : List WorkerPC
deriving DecidableEq

/-- One transition of a worker's program counter under the current flag:
the `while` check either enters the body or exits the thread; the
callback completes (its `NetBehaviour` never changes control flow, see
`trigger_mine`); the sleep completes and returns to the check. -/
def stepPC (keep : Bool) : WorkerPC → Option WorkerPC
  | .atCheck => if keep then some .atCall else none
  | .atCall => some .atSleep
  | .atSleep => some .atCheck

/-- Interleaved actions on a `MinerClient`: the controller's
`start_loop` and `stop_loop` calls, and one scheduled step of worker
`i` whose remote call (if this step is its callback) behaves as `net`. -/
inductive LoopAct where
  | startLoop
  | stopLoop
  | workerStep (i : Nat) (net : NetBehaviour)

/-- Small-step semantics of `MinerClient` (miner.py lines 39-58).
`start_loop` returns immediately when `keep_mining` is already set,
otherwise sets it and spawns one worker; `stop_loop` clears the flag —
its `join(timeout=1)` only waits and cannot force the worker out, so the
state change is the flag write alone; a worker step advances that
worker's program counter, removing the worker when its check fails. -/
def loopStep (s : LoopState) : LoopAct → LoopState
  | .startLoop =>
    if s.keepMining then s else ⟨true, s.workers ++ [.atCheck]⟩
  | .stopLoop => ⟨false, s.workers⟩
  | .workerStep i _ =>
    match s.workers[i]? with
    | none => s
    | some pc =>
      match stepPC s.keepMining pc with
      | none => ⟨s.keepMining, s.workers.eraseIdx i⟩
      | some pc2 => ⟨s.keepMining, s.workers.set i pc2⟩

/-- Run a sequence of interleaved actions. -/
def runLoop (s : LoopState) (acts : List LoopAct) : LoopState :=
  acts.foldl loopStep s

/-- A fresh `MinerClient`: flag down, no worker. -/
def loopInit : LoopState := ⟨false, []⟩

/-- Whether executing `a` in state `s` performs a `time.sleep(interval)`
call (the scheduled worker is at `atSleep`). -/
def isSleepStep (s : LoopState) : LoopAct → Bool
  | .workerStep i _ =>
    match s.workers[i]? with
    | some .atSleep => true
    | _ => false
  | _ => false

/-- Whether executing `a` in state `s` performs a callback invocation
(`trigger_mine`; the scheduled worker is at `atCall`). -/
def isCallStep (s : LoopState) : LoopAct → Bool
  | .workerStep i _ =>
    match s.workers[i]? with
    | some .atCall => true
    | _ => false
  | _ => false

/-- Number of sleeps performed along a run. -/
def countSleeps : LoopState → List LoopAct → Nat
  | _, [] => 0
  | s, a :: rest =>
    (if isSleepStep s a then 1 else 0) + countSleeps (loopStep s a) rest

/-- Number of callback invocations performed along a run. -/
def countCalls : LoopState → List LoopAct → Nat
  | _, [] => 0
  | s, a :: rest =>
    (if isCallStep s a then 1 else 0) + countCalls (loopStep s a) rest

/-- Values returned by `trigger_mine` for the callbacks performed along
a run, in order. -/
def callResults : LoopState → List LoopAct → List JVal
  | _, [] => []
  | s, a :: rest =>
    let tail := callResults (loopStep s a) rest
    match a with
    | .workerStep _ net => if isCallStep s a then trigger_mine net :: tail else tail
    | _ => tail

/-- Scheduled actions for `n` full iterations of a single worker that
starts at `atCall`, the iteration's remote behaviours drawn from `nets`:
callback, sleep, check. -/
def iterActs (nets : List NetBehaviour) : List LoopAct :=
  nets.flatMap (fun net => [.workerStep 0 net, .workerStep 0 (.ok .null), .workerStep 0 (.ok .null)])

/-- Status of one HTTP attempt as `requests` exposes it to the explorer
client: a response with its status code and the result of `.json()` on
its body (`Except.error` when `.json()` raises), or an exception raised
by `requests` itself. -/
inductive HttpAttempt where
  | response (status : Nat) (body : Except String JVal)
  | exn (e : String)

/-- Attempts that are failures in the claim's sense: a raised exception
or any non-200 status. -/
def isFailure : HttpAttempt → Bool
  | .response status _ => status ≠ 200
  | .exn _ => true

/-- `ExplorerClient.get_stats` (explorer.py lines 7-20): 200 → parsed
body (a parse error is caught by the same `except` and converted),
non-200 → `(\x7b"error": "Status: <code>"\x7d)`, exception → converted. -/
def get_stats : HttpAttempt → JVal
  | .response status body =>
    if status = 200 then
      match body with
      | .ok v => v
      | .error e => errObj e
    else errObj ("Status: " ++ toString status)
  | .exn e => errObj e

/-- `ExplorerClient.get_latest_blocks` (explorer.py lines 22-30): 200 →
parsed body; every failure (non-200, request exception, body parse
error) returns the empty list. -/
def get_latest_blocks : HttpAttempt → JVal
  | .response status body =>
    if status = 200 then
      match body with
      | .ok v => v
      | .error _ => .arr .nil
    else .arr .nil
  | .exn _ => .arr .nil

/-- `ExplorerClient.get_balance` (explorer.py lines 32-41): same shape
as `get_stats`. -/
def get_balance : HttpAttempt → JVal
  | .response status body =>
    if status = 200 then
      match body with
      | .ok v => v
      | .error e => errObj e
    else errObj ("Status: " ++ toString status)
  | .exn e => errObj e

/-- `ExplorerClient.get_feed` (explorer.py lines 43-51): same shape as
`get_latest_blocks`. -/
def get_feed : HttpAttempt → JVal
  | .response status body =>
    if status = 200 then
      match body with
      | .ok v => v
      | .error _ => .arr .nil
    else .arr .nil
  | .exn _ => .arr .nil

/-- `ExplorerClient.post_content` (explorer.py lines 53-59): returns
`response.json()` for any status code; only a raised exception
(including a body that fails to parse) is converted into an error dict. -/
def post_content : HttpAttempt → JVal
  | .response _ body =>
    match body with
    | .ok v => v
    | .error e => errObj e
  | .exn e => errObj e

/-- `ExplorerClient.send_transfer` (explorer.py lines 61-68): same shape
as `post_content`. -/
def send_transfer : HttpAttempt → JVal
  | .response _ body =>
    match body with
    | .ok v => v
    | .error e => errObj e
  | .exn e => errObj e

/-- Whether a returned value is an error mapping: a dict containing the
key `"error"` (the shape the GUI tests with `"error" in res`). -/
def hasErrorKey : JVal → Bool
  | .obj fs => fs.hasKey "error"
  | _ => false

/-- Inversion of the transfer pipeline: a submission determines the
parsed amount, a truthy private key, the canonical string that was
signed, a truthy signature over exactly that string, and the final
transaction as the built `tx` with the signature appended. -/
theorem send_coins_submitted_inv {sigFn : String → String → String} {w : WalletKeys}
    {to_wallet amount_entry : String} {timestamp : Int} {tx : JFields} {c : String}
    (h : send_coins sigFn w to_wallet amount_entry timestamp = .submitted tx c) :
    ∃ a s, pyFloat amount_entry = .ok a ∧ pyTruthyStr w.private_key = true ∧
      c = canonOfSend w to_wallet a timestamp ∧
      walletSign sigFn w.private_key c = some s ∧ s.isEmpty = false ∧
      tx = dictInsert (sendCoinsTx w to_wallet a timestamp) "sender_signature" (.str s) := by
  unfold send_coins at h
  dsimp only at h
  split at h
  · exact SendOutcome.noConfusion h
  · exact SendOutcome.noConfusion h
  case _ a hp =>
    split at h
    · exact SendOutcome.noConfusion h
    case _ ht =>
      split at h
      · exact SendOutcome.noConfusion h
      case _ s hs =>
        split at h
        · exact SendOutcome.noConfusion h
        case _ he =>
          obtain ⟨htx, hc⟩ := SendOutcome.submitted.inj h
          refine ⟨a, s, hp, ?_, hc.symm, ?_, ?_, htx.symm⟩
          · revert ht; cases pyTruthyStr w.private_key <;> simp
          · rw [← hc]; exact hs
          · revert he; cases s.isEmpty <;> simp

/-- Inversion of the post pipeline, mirroring
`send_coins_submitted_inv`. -/
theorem post_tweet_submitted_inv {sigFn : String → String → String} {w : WalletKeys}
    {content : String} {timestamp : Int} {tx : JFields} {c : String}
    (h : post_tweet sigFn w content timestamp = .submitted tx c) :
    ∃ s, content.isEmpty = false ∧ pyTruthyStr w.private_key = true ∧
      c = canonOfPost w content timestamp ∧
      walletSign sigFn w.private_key c = some s ∧ s.isEmpty = false ∧
      tx = dictInsert (postTweetTx w content timestamp) "sender_signature" (.str s) := by
  unfold post_tweet at h
  dsimp only at h
  split at h
  · exact PostOutcome.noConfusion h
  case _ hc0 =>
    split at h
    · exact PostOutcome.noConfusion h
    case _ ht =>
      split at h
      · exact PostOutcome.noConfusion h
      case _ s hs =>
        split at h
        · exact PostOutcome.noConfusion h
        case _ he =>
          obtain ⟨htx, hc⟩ := PostOutcome.submitted.inj h
          refine ⟨s, ?_, ?_, hc.symm, ?_, ?_, htx.symm⟩
          · revert hc0; cases content.isEmpty <;> simp
          · revert ht; cases pyTruthyStr w.private_key <;> simp
          · rw [← hc]; exact hs
          · revert he; cases s.isEmpty <;> simp

/-- The resolved signable dictionary shared by both pipelines: the ten
keys in source order, `tx_id` pinned to the empty string. -/
def signableChain (fw tw ty pl am fe ts nc spk : JVal) : JFields :=
  .cons "tx_id" (.str "") (.cons "from_wallet" fw (.cons "to_wallet" tw
    (.cons "type" ty (.cons "payload" pl (.cons "amount" am (.cons "fee" fe
      (.cons "timestamp" ts (.cons "nonce" nc
        (.cons "sender_public_key" spk .nil)))))))))

/-- The transfer pipeline's signable dict resolves to the shared chain. -/
theorem signableOfSend_eq (t : JFields) :
    signableOfSend t = signableChain (t.getD "from_wallet") (t.getD "to_wallet")
      (t.getD "type") (t.getD "payload") (t.getD "amount") (t.getD "fee")
      (t.getD "timestamp") (t.getD "nonce") (t.getD "sender_public_key") := rfl

/-- The post pipeline's signable dict resolves to the same chain: its
duplicated `"tx_id"` literal entry collapses under CPython's
first-position/last-value rule to the single leading entry. -/
theorem signableOfPost_eq (t : JFields) :
    signableOfPost t = signableChain (t.getD "from_wallet") (t.getD "to_wallet")
      (t.getD "type") (t.getD "payload") (t.getD "amount") (t.getD "fee")
      (t.getD "timestamp") (t.getD "nonce") (t.getD "sender_public_key") := rfl

/-- Running an action list in two stages. -/
theorem runLoop_append (s : LoopState) (a b : List LoopAct) :
    runLoop s (a ++ b) = runLoop (runLoop s a) b := by
  simp only [runLoop, List.foldl_append]

/-- Call results accumulate across stages. -/
theorem callResults_append (s : LoopState) (a b : List LoopAct) :
    callResults s (a ++ b) = callResults s a ++ callResults (runLoop s a) b := by
  induction a generalizing s with
  | nil => rfl
  | cons x xs ih =>
    cases x with
    | startLoop => simpa [callResults, isCallStep, runLoop] using ih (loopStep s .startLoop)
    | stopLoop => simpa [callResults, isCallStep, runLoop] using ih (loopStep s .stopLoop)
    | workerStep i net =>
      simp only [List.cons_append, callResults, runLoop, List.foldl_cons, List.append_eq]
      rw [ih (loopStep s (.workerStep i net))]
      split <;> simp [runLoop]

/-!
Concrete fixtures used by the witnesses and counterexamples: a wallet
whose public key is the claim's `AA11`, a 64-hex-digit private key (32
bytes once decoded, as `nacl.signing.SigningKey` requires), and a stand-in
signing primitive returning a fixed non-empty hex string.
-/

/-- A syntactically valid private key: 64 hex digits. -/
def priv64 : String :=
  "aaaaaaaaaaaaaaaaaaaaaaaaaaaaaaaaaaaaaaaaaaaaaaaaaaaaaaaaaaaaaaaa"

/-- Wallet state with the claim's public key loaded. -/
def w0 : WalletKeys := ⟨some priv64, some "AA11"⟩

/-- Stand-in for the external Ed25519 primitive. -/
def sigFn0 : String → String → String := fun _ _ => "deadbeef"

/-- The canonical signable string the transfer pipeline actually
produces for the claim's concrete transaction (amount entered as `10`,
hence the Python float rendering `10.0`). -/
def actualTransferCanon : String :=
  "\x7b\"tx_id\":\"\",\"from_wallet\":\"AA11\",\"to_wallet\":\"BB22\",\"type\":\"TRANSFER\",\"payload\":\x7b\x7d,\"amount\":10.0,\"fee\":500,\"timestamp\":1700000000000,\"nonce\":1700000000000,\"sender_public_key\":\"AA11\"\x7d"

/-- The literal canonical string the specification requires for the
same transaction (`"amount":10`). -/
def specTransferCanon : String :=
  "\x7b\"tx_id\":\"\",\"from_wallet\":\"AA11\",\"to_wallet\":\"BB22\",\"type\":\"TRANSFER\",\"payload\":\x7b\x7d,\"amount\":10,\"fee\":500,\"timestamp\":1700000000000,\"nonce\":1700000000000,\"sender_public_key\":\"AA11\"\x7d"

/-- The transaction `send_coins` submits for the claim's inputs. -/
def tx10 : JFields :=
  dictInsert (sendCoinsTx w0 "BB22" ⟨10⟩ 1700000000000) "sender_signature" (.str "deadbeef")

set_option maxRecDepth 10000 in
set_option maxHeartbeats 4000000 in
/-- C1: the transfer pipeline's canonical signable string for
from=AA11, to=BB22, amount 10, fee 500, timestamp = nonce =
1700000000000.  The pipeline parses the amount entry `10` with
`float()`, so `json.dumps` renders it `10.0`, and the produced string
differs from the specified literal (which renders the amount `10`). -/
theorem transfer_canonical_amount_rendering :
    pyFloat "10" = .ok ⟨10⟩ ∧
    send_coins sigFn0 w0 "BB22" "10" 1700000000000 = .submitted tx10 actualTransferCanon ∧
    actualTransferCanon ≠ specTransferCanon := by
  refine ⟨by decide, by decide, by decide⟩

/-- C2 (first half, stated without hypotheses): the signable dict each
pipeline dumps and signs never contains the `sender_signature` key and
always contains `tx_id` bound to the empty string. -/
theorem signable_excludes_signature (t : JFields) :
    (signableOfSend t).hasKey "sender_signature" = false ∧
    (signableOfSend t).get? "tx_id" = some (.str "") ∧
    (signableOfPost t).hasKey "sender_signature" = false ∧
    (signableOfPost t).get? "tx_id" = some (.str "") := by
  rw [signableOfSend_eq, signableOfPost_eq]
  exact ⟨rfl, rfl, rfl, rfl⟩

/-- C2: in both submit pipelines, the canonical bytes that are signed
are the dump of the signable dict — which by `signable_excludes_signature`
has no `sender_signature` key and carries `tx_id` as the empty string —
and the submitted transaction is the pre-signing `tx` dict with the
signature appended only afterwards, the signature being over exactly
those canonical bytes. -/
theorem signed_bytes_exclude_signature (sigFn : String → String → String)
    (w : WalletKeys) (to_wallet amount_entry content : String) (timestamp : Int)
    (a : PyFloat) (s : String) (tx ptx : JFields) (c pc : String) :
    (send_coins sigFn w to_wallet amount_entry timestamp = .submitted tx c →
      pyFloat amount_entry = .ok a →
      walletSign sigFn w.private_key c = some s →
      c = dumpsVal (.obj (signableOfSend (sendCoinsTx w to_wallet a timestamp))) ∧
      (signableOfSend (sendCoinsTx w to_wallet a timestamp)).hasKey "sender_signature" = false ∧
      (signableOfSend (sendCoinsTx w to_wallet a timestamp)).get? "tx_id" = some (.str "") ∧
      tx = dictInsert (sendCoinsTx w to_wallet a timestamp) "sender_signature" (.str s)) ∧
    (post_tweet sigFn w content timestamp = .submitted ptx pc →
      walletSign sigFn w.private_key pc = some s →
      pc = dumpsVal (.obj (signableOfPost (postTweetTx w content timestamp))) ∧
      (signableOfPost (postTweetTx w content timestamp)).hasKey "sender_signature" = false ∧
      (signableOfPost (postTweetTx w content timestamp)).get? "tx_id" = some (.str "") ∧
      ptx = dictInsert (postTweetTx w content timestamp) "sender_signature" (.str s)) := by
  constructor
  · intro h hok hsig
    obtain ⟨a0, s0, hp, _, hc, hs, _, htx⟩ := send_coins_submitted_inv h
    have ha : a0 = a := by
      rw [hok] at hp
      exact (FloatParse.ok.inj hp).symm
    have hss : s0 = s := by
      rw [hsig] at hs
      exact (Option.some.inj hs).symm
    rw [← ha, ← hss]
    refine ⟨hc, ?_, ?_, htx⟩
    · exact (signable_excludes_signature (sendCoinsTx w to_wallet a0 timestamp)).1
    · exact (signable_excludes_signature (sendCoinsTx w to_wallet a0 timestamp)).2.1
  · intro h hsig
    obtain ⟨s0, _, _, hc, hs, _, htx⟩ := post_tweet_submitted_inv h
    have hss : s0 = s := by
      rw [hsig] at hs
      exact (Option.some.inj hs).symm
    rw [← hss]
    refine ⟨hc, ?_, ?_, htx⟩
    · exact (signable_excludes_signature (postTweetTx w content timestamp)).2.2.1
    · exact (signable_excludes_signature (postTweetTx w content timestamp)).2.2.2

/-- The transaction `post_tweet` submits for content `hi`. -/
def ptxHi : JFields :=
  dictInsert (postTweetTx w0 "hi" 1700000000000) "sender_signature" (.str "deadbeef")

set_option maxRecDepth 10000 in
set_option maxHeartbeats 4000000 in
/-- Witness for `signed_bytes_exclude_signature`: concrete transfer and
post submissions whose signed canonical strings exclude the signature
and carry the empty `tx_id`. -/
theorem signed_bytes_exclude_signature_witness :
    actualTransferCanon
        = dumpsVal (.obj (signableOfSend (sendCoinsTx w0 "BB22" ⟨10⟩ 1700000000000))) ∧
    (signableOfSend (sendCoinsTx w0 "BB22" ⟨10⟩ 1700000000000)).hasKey "sender_signature" = false ∧
    (signableOfSend (sendCoinsTx w0 "BB22" ⟨10⟩ 1700000000000)).get? "tx_id" = some (.str "") ∧
    tx10 = dictInsert (sendCoinsTx w0 "BB22" ⟨10⟩ 1700000000000) "sender_signature" (.str "deadbeef") ∧
    canonOfPost w0 "hi" 1700000000000
        = dumpsVal (.obj (signableOfPost (postTweetTx w0 "hi" 1700000000000))) ∧
    (signableOfPost (postTweetTx w0 "hi" 1700000000000)).hasKey "sender_signature" = false ∧
    (signableOfPost (postTweetTx w0 "hi" 1700000000000)).get? "tx_id" = some (.str "") ∧
    ptxHi = dictInsert (postTweetTx w0 "hi" 1700000000000) "sender_signature" (.str "deadbeef") := by
  have h := signed_bytes_exclude_signature sigFn0 w0 "BB22" "10" "hi" 1700000000000
    ⟨10⟩ "deadbeef" tx10 ptxHi actualTransferCanon (canonOfPost w0 "hi" 1700000000000)
  obtain ⟨hc, h2, h3, h4⟩ := h.1 (by decide) (by decide) (by decide)
  obtain ⟨pc1, p2, p3, p4⟩ := h.2 (by decide) (by decide)
  exact ⟨hc, h2, h3, h4, pc1, p2, p3, p4⟩

/-- The transaction `send_coins` submits when `-5` is entered. -/
def txNeg : JFields :=
  dictInsert (sendCoinsTx w0 "BB22" ⟨-5⟩ 1700000000000) "sender_signature" (.str "deadbeef")

set_option maxRecDepth 10000 in
set_option maxHeartbeats 4000000 in
/-- Counterexample to C3: entering `-5` as the amount is not rejected —
`send_coins` builds, signs and submits a transaction whose amount field
is the negative float `-5.0`.  No sign check exists in the pipeline. -/
theorem negative_amount_accepted :
    pyFloat "-5" = .ok ⟨-5⟩ ∧
    send_coins sigFn0 w0 "BB22" "-5" 1700000000000
        = .submitted txNeg (canonOfSend w0 "BB22" ⟨-5⟩ 1700000000000) ∧
    txNeg.getD "amount" = .float ⟨-5⟩ ∧
    (-5 : Int) < 0 := by
  refine ⟨by decide, by decide, by decide, by decide⟩

/-- C3 (amended): the transfer pipeline validates only that the amount
entry parses as a float — a parse failure is rejected with the "Invalid
Amount" validation error before any transaction is built — while any
parsed amount, negative ones included, is used unchanged, and the fee is
the fixed constant 500. -/
theorem amount_validation_amended (sigFn : String → String → String)
    (w : WalletKeys) (to_wallet amount_entry : String) (timestamp : Int) :
    (pyFloat amount_entry = .exn →
      send_coins sigFn w to_wallet amount_entry timestamp = .invalidAmount) ∧
    (∀ a tx c, pyFloat amount_entry = .ok a →
      send_coins sigFn w to_wallet amount_entry timestamp = .submitted tx c →
      tx.getD "amount" = .float a ∧ tx.getD "fee" = .int 500) := by
  constructor
  · intro hx
    unfold send_coins
    rw [hx]
  · intro a tx c hok h
    obtain ⟨a0, s0, hp, _, _, _, _, htx⟩ := send_coins_submitted_inv h
    have ha : a0 = a := by
      rw [hok] at hp
      exact (FloatParse.ok.inj hp).symm
    rw [htx, ← ha]
    constructor
    · rfl
    · rfl

set_option maxRecDepth 10000 in
set_option maxHeartbeats 2000000 in
/-- Witness for `amount_validation_amended`: the unparseable entry `abc`
is rejected, and the parsed entry `10` flows through with fee 500. -/
theorem amount_validation_amended_witness :
    send_coins sigFn0 w0 "BB22" "abc" 1700000000000 = .invalidAmount ∧
    tx10.getD "amount" = .float ⟨10⟩ ∧ tx10.getD "fee" = .int 500 := by
  have h := amount_validation_amended sigFn0 w0 "BB22" "abc" 1700000000000
  have h10 := amount_validation_amended sigFn0 w0 "BB22" "10" 1700000000000
  obtain ⟨hamt, hfee⟩ := h10.2 ⟨10⟩ tx10 actualTransferCanon (by decide) (by decide)
  exact ⟨h.1 (by decide), hamt, hfee⟩

/-- Counterexample to C4: for a malformed key file the loader returns
`None` to the caller — exactly what it returns for a missing file — and
leaves both keys unset; the error text goes only to the console. -/
theorem malformed_keyfile_silent :
    (load_wallet (.malformed "Expecting value")).returned = none ∧
    (load_wallet (.malformed "Expecting value")).keys = ⟨none, none⟩ ∧
    (load_wallet (.malformed "Expecting value")).keys = (load_wallet .missing).keys ∧
    (load_wallet .missing).returned = none := by
  refine ⟨rfl, rfl, rfl, rfl⟩

/-- C4 (amended): a missing key file is skipped silently with no error;
a malformed key file has its exception caught and printed to the console
while the keys stay unset, and the caller receives `None` in every case
— no structured error value distinguishes the malformed file. -/
theorem load_wallet_error_amended :
    load_wallet .missing = ⟨⟨none, none⟩, none, none⟩ ∧
    (∀ e, load_wallet (.malformed e)
        = ⟨⟨none, none⟩, some ("Error loading wallet: " ++ e), none⟩) ∧
    (∀ kf, (load_wallet kf).returned = none) := by
  refine ⟨rfl, fun e => rfl, fun kf => ?_⟩
  cases kf <;> rfl

/-- C5: with no private key loaded (or an empty one), `WalletManager.sign`
returns the explicit `None` rather than a usable-looking signature, and
a failed (`None`) signing result over the pipeline's canonical string
stops each submit pipeline before its network call — no submission with
that outcome ever happens. -/
theorem no_key_signing_blocks_submission (sigFn : String → String → String)
    (w : WalletKeys) (to_wallet amount_entry content : String) (timestamp : Int)
    (a : PyFloat) :
    (∀ m, walletSign sigFn none m = none) ∧
    (∀ m, walletSign sigFn (some "") m = none) ∧
    (pyFloat amount_entry = .ok a →
      walletSign sigFn w.private_key (canonOfSend w to_wallet a timestamp) = none →
      ∀ tx c, send_coins sigFn w to_wallet amount_entry timestamp ≠ .submitted tx c) ∧
    (walletSign sigFn w.private_key (canonOfPost w content timestamp) = none →
      ∀ tx c, post_tweet sigFn w content timestamp ≠ .submitted tx c) := by
  refine ⟨fun m => rfl, fun m => rfl, ?_, ?_⟩
  · intro hok hnone tx c h
    obtain ⟨a0, s0, hp, _, hc, hs, _, _⟩ := send_coins_submitted_inv h
    have ha : a0 = a := by
      rw [hok] at hp
      exact (FloatParse.ok.inj hp).symm
    rw [hc, ha, hnone] at hs
    exact Option.noConfusion hs
  · intro hnone tx c h
    obtain ⟨s0, _, _, hc, hs, _, _⟩ := post_tweet_submitted_inv h
    rw [hc, hnone] at hs
    exact Option.noConfusion hs

/-- Witness for `no_key_signing_blocks_submission`: a wallet with no
private key can sign nothing and submits nothing. -/
theorem no_key_signing_blocks_submission_witness :
    walletSign sigFn0 none "message" = none ∧
    send_coins sigFn0 ⟨none, some "AA11"⟩ "BB22" "10" 1700000000000
        ≠ .submitted JFields.nil "" ∧
    post_tweet sigFn0 ⟨none, some "AA11"⟩ "hi" 1700000000000
        ≠ .submitted JFields.nil "" := by
  have h := no_key_signing_blocks_submission sigFn0 ⟨none, some "AA11"⟩ "BB22" "10" "hi"
    1700000000000 ⟨10⟩
  exact ⟨h.1 "message", h.2.2.1 (by decide) rfl JFields.nil "", h.2.2.2 rfl JFields.nil ""⟩

/-- Interleaving that defeats the single-worker guarantee: start a loop,
let the worker pass its check and finish a callback, stop the loop while
the worker sleeps (the `join(timeout=1)` elapses during the 5-second
sleep), then start again.  `start_loop` consults only `keep_mining`, not
the live thread, so it spawns a second worker while the first still
sleeps — and the first, waking to find the flag re-raised, keeps looping. -/
def staleRestartTrace : List LoopAct :=
  [.startLoop, .workerStep 0 (.ok .null), .workerStep 0 (.ok .null), .stopLoop, .startLoop]

/-- Counterexample to C6: after a stop whose join times out and an
immediate restart, two live workers coexist in one `MinerClient`. -/
theorem two_live_workers_after_restart :
    runLoop loopInit staleRestartTrace = ⟨true, [.atSleep, .atCheck]⟩ ∧
    (runLoop loopInit staleRestartTrace).workers.length = 2 := by
  refine ⟨rfl, rfl⟩

/-- C6 (amended): `start_loop` while `keep_mining` is set is a no-op
that spawns nothing, and `stop_loop` is idempotent, so a second stop in
a row is safe; but the claim's "at most one live worker at any time"
does not hold — see `two_live_workers_after_restart` — because
`start_loop` checks only the flag, never whether the previous worker
thread has exited. -/
theorem start_stop_idempotent_amended :
    (∀ s : LoopState, s.keepMining = true → loopStep s .startLoop = s) ∧
    (∀ s : LoopState, loopStep (loopStep s .stopLoop) .stopLoop = loopStep s .stopLoop) := by
  constructor
  · intro s h
    unfold loopStep
    rw [h]
    rfl
  · intro s
    rfl

/-- Witness for `start_stop_idempotent_amended`: a running loop state
absorbs a further `start_loop`. -/
theorem start_stop_idempotent_amended_witness :
    (⟨true, [WorkerPC.atSleep]⟩ : LoopState).keepMining = true ∧
    loopStep ⟨true, [WorkerPC.atSleep]⟩ .startLoop = ⟨true, [WorkerPC.atSleep]⟩ := by
  exact ⟨rfl, start_stop_idempotent_amended.1 ⟨true, [WorkerPC.atSleep]⟩ rfl⟩

/-- Run reaching the state right after `stop_loop` was called while the
worker had passed its check and was about to run the callback. -/
def cancelDuringCallTrace : List LoopAct :=
  [.startLoop, .workerStep 0 (.ok .null), .stopLoop]

/-- Counterexample to C7: with the cancellation flag already cleared,
the worker still completes the in-flight callback and then performs one
full `time.sleep(interval)` before re-checking the flag and exiting —
the loop body sleeps after the callback unconditionally, so cancellation
latency includes one additional sleep, not zero. -/
theorem sleeps_once_after_cancellation :
    (runLoop loopInit cancelDuringCallTrace).keepMining = false ∧
    runLoop loopInit cancelDuringCallTrace = ⟨false, [.atCall]⟩ ∧
    countSleeps ⟨false, [.atCall]⟩
        [.workerStep 0 (.ok .null), .workerStep 0 (.ok .null), .workerStep 0 (.ok .null)] = 1 ∧
    runLoop ⟨false, [.atCall]⟩
        [.workerStep 0 (.ok .null), .workerStep 0 (.ok .null), .workerStep 0 (.ok .null)]
        = ⟨false, []⟩ := by
  refine ⟨rfl, rfl, rfl, rfl⟩

/-- C7 (amended): once the cancellation flag is down and stays down, a
worker in any position performs at most one further callback invocation
and at most one further sleep, and within three scheduled steps it has
observed the flag and exited; no callback begins after the worker's next
flag check. -/
theorem cancellation_latency_amended (pc : WorkerPC) (n1 n2 n3 : NetBehaviour) :
    runLoop ⟨false, [pc]⟩ [.workerStep 0 n1, .workerStep 0 n2, .workerStep 0 n3]
        = ⟨false, []⟩ ∧
    countCalls ⟨false, [pc]⟩ [.workerStep 0 n1, .workerStep 0 n2, .workerStep 0 n3] ≤ 1 ∧
    countSleeps ⟨false, [pc]⟩ [.workerStep 0 n1, .workerStep 0 n2, .workerStep 0 n3] ≤ 1 := by
  cases pc with
  | atCheck => exact ⟨rfl, Nat.zero_le 1, Nat.zero_le 1⟩
  | atCall => exact ⟨rfl, Nat.le.refl, Nat.le.refl⟩
  | atSleep => exact ⟨rfl, Nat.zero_le 1, Nat.le.refl⟩

/-- C9: every behaviour of the remote call inside the loop body —
including a raised exception — is converted by `trigger_mine` into a
returned value, so the worker never dies on a failed call: for any
sequence of remote behaviours the loop comes back to the top of its
body, having produced exactly one result value per iteration, and a
raised exception surfaces as an error dict, never as a crash. -/
theorem mining_loop_survives_failures (nets : List NetBehaviour) :
    runLoop ⟨true, [.atCall]⟩ (iterActs nets) = ⟨true, [.atCall]⟩ ∧
    callResults ⟨true, [.atCall]⟩ (iterActs nets) = nets.map trigger_mine ∧
    (∀ e, trigger_mine (.error e) = errObj e) := by
  induction nets with
  | nil => exact ⟨rfl, rfl, fun e => rfl⟩
  | cons n rest ih =>
    obtain ⟨ih1, ih2, _⟩ := ih
    have hsplit : iterActs (n :: rest)
        = [.workerStep 0 n, .workerStep 0 (.ok .null), .workerStep 0 (.ok .null)]
          ++ iterActs rest := rfl
    refine ⟨?_, ?_, fun e => rfl⟩
    · rw [hsplit, runLoop_append]
      exact ih1
    · rw [hsplit, callResults_append]
      have hone : callResults ⟨true, [.atCall]⟩
          [.workerStep 0 n, .workerStep 0 (.ok .null), .workerStep 0 (.ok .null)]
          = [trigger_mine n] := rfl
      have hback : runLoop ⟨true, [.atCall]⟩
          [.workerStep 0 n, .workerStep 0 (.ok .null), .workerStep 0 (.ok .null)]
          = ⟨true, [.atCall]⟩ := rfl
      rw [hone, hback, ih2]
      rfl

/-- C8: canonicalization is deterministic and path-independent.  The
signable dicts built by the post and transfer code paths resolve to the
same key chain, and for any two transaction dicts whose signable fields
agree value-for-value — however they were constructed — the compact
dumps of the signable dicts are byte-identical. -/
theorem canonicalization_deterministic :
    (∀ t : JFields, signableOfPost t = signableOfSend t) ∧
    (∀ t1 t2 : JFields,
      t1.getD "from_wallet" = t2.getD "from_wallet" →
      t1.getD "to_wallet" = t2.getD "to_wallet" →
      t1.getD "type" = t2.getD "type" →
      t1.getD "payload" = t2.getD "payload" →
      t1.getD "amount" = t2.getD "amount" →
      t1.getD "fee" = t2.getD "fee" →
      t1.getD "timestamp" = t2.getD "timestamp" →
      t1.getD "nonce" = t2.getD "nonce" →
      t1.getD "sender_public_key" = t2.getD "sender_public_key" →
      dumpsVal (.obj (signableOfPost t1)) = dumpsVal (.obj (signableOfSend t2))) := by
  constructor
  · intro t
    rw [signableOfPost_eq, signableOfSend_eq]
  · intro t1 t2 h1 h2 h3 h4 h5 h6 h7 h8 h9
    rw [signableOfPost_eq, signableOfSend_eq, h1, h2, h3, h4, h5, h6, h7, h8, h9]

/-- Witness for `canonicalization_deterministic`: a concrete transfer
transaction dict canonicalizes identically through both code paths. -/
theorem canonicalization_deterministic_witness :
    dumpsVal (.obj (signableOfPost (sendCoinsTx w0 "BB22" ⟨10⟩ 1700000000000)))
      = dumpsVal (.obj (signableOfSend (sendCoinsTx w0 "BB22" ⟨10⟩ 1700000000000))) := by
  exact canonicalization_deterministic.2 (sendCoinsTx w0 "BB22" ⟨10⟩ 1700000000000)
    (sendCoinsTx w0 "BB22" ⟨10⟩ 1700000000000) rfl rfl rfl rfl rfl rfl rfl rfl rfl

/-- Counterexample to C10: a non-200 response whose body parses (here a
404 carrying the JSON list `[]`) is a failure, yet `post_content` and
`send_transfer` return the parsed body unchanged — not an error mapping. -/
theorem post_content_passes_non200_body :
    isFailure (.response 404 (.ok (.arr .nil))) = true ∧
    post_content (.response 404 (.ok (.arr .nil))) = .arr .nil ∧
    hasErrorKey (.arr .nil) = false ∧
    send_transfer (.response 404 (.ok (.arr .nil))) = .arr .nil := by
  refine ⟨rfl, rfl, rfl, rfl⟩

/-- C10 (amended): on every failure (exception or non-200) the
recent-blocks and content-feed fetches return the empty list and never
an error mapping, and `get_stats`/`get_balance` return an error mapping;
`post_content` and `send_transfer` convert raised exceptions and
unparseable bodies into an error mapping but return the parsed body of a
non-200 response unchanged. -/
theorem explorer_failure_shapes_amended :
    (∀ a, isFailure a = true →
      get_latest_blocks a = .arr .nil ∧ get_feed a = .arr .nil ∧
      hasErrorKey (get_latest_blocks a) = false ∧ hasErrorKey (get_feed a) = false) ∧
    (∀ a, isFailure a = true →
      hasErrorKey (get_stats a) = true ∧ hasErrorKey (get_balance a) = true) ∧
    (∀ e, post_content (.exn e) = errObj e ∧ send_transfer (.exn e) = errObj e) ∧
    (∀ st e, post_content (.response st (.error e)) = errObj e ∧
      send_transfer (.response st (.error e)) = errObj e) := by
  refine ⟨?_, ?_, fun e => ⟨rfl, rfl⟩, fun st e => ⟨rfl, rfl⟩⟩
  · intro a h
    cases a with
    | exn e => exact ⟨rfl, rfl, rfl, rfl⟩
    | response st body =>
      have hne : ¬ st = 200 := by simpa [isFailure] using h
      refine ⟨?_, ?_, ?_, ?_⟩ <;>
        simp [get_latest_blocks, get_feed, hasErrorKey, hne]
  · intro a h
    cases a with
    | exn e => exact ⟨rfl, rfl⟩
    | response st body =>
      have hne : ¬ st = 200 := by simpa [isFailure] using h
      refine ⟨?_, ?_⟩ <;>
        simp [get_stats, get_balance, hasErrorKey, errObj, JFields.hasKey, hne]

/-- Witness for `explorer_failure_shapes_amended`: a raised connection
error yields the empty list from the feed endpoints and an error mapping
from the stats, balance and submit endpoints. -/
theorem explorer_failure_shapes_amended_witness :
    get_latest_blocks (.exn "connection refused") = .arr .nil ∧
    get_feed (.exn "connection refused") = .arr .nil ∧
    hasErrorKey (get_stats (.exn "connection refused")) = true ∧
    hasErrorKey (get_balance (.exn "connection refused")) = true ∧
    post_content (.exn "connection refused") = errObj "connection refused" := by
  have h := explorer_failure_shapes_amended
  obtain ⟨h1, h2, _, _⟩ := h.1 (.exn "connection refused") rfl
  obtain ⟨h5, h6⟩ := h.2.1 (.exn "connection refused") rfl
  exact ⟨h1, h2, h5, h6, (h.2.2.1 "connection refused").1⟩

end TraceNet

example : TraceNet.dumpsVal (.obj .nil) = "\x7b\x7d" := rfl

example : TraceNet.dumpsVal (.obj (.cons "a" (.int 10) (.cons "b" (.float ⟨10⟩) .nil)))
    = "\x7b\"a\":10,\"b\":10.0\x7d" := rfl
